import Mathlib

/-!
Verification of the conversation persistence / summarization / gap-analysis
core of the CHATBOT backend (src/app/services/chat.py,
src/app/services/gap_analysis.py, src/app/utils/validators.py,
src/app/models/chat.py, src/app/routes/chat.py).

The document store is modelled as an explicit state (`DbState`); every
`async` database or provider call that can raise is modelled as an
`Except String` value; timestamps are naturals.
-/

namespace Chatbot

/-- A stored message-exchange document: the `message_doc` dictionary built in
`ChatService._store_message` (src/app/services/chat.py). -/
structure Doc where
  conversation_id : String
  user_message : String
  assistant_message : String
  timestamp : Nat
  created_at : Nat
  message_length : Nat
  deriving DecidableEq

/-- The database-facing state visible to `ChatService`: whether the client
holds a handle (`DatabaseService.get_database() is not None`), whether a
(re)connect attempt would succeed, whether the aggregation cursor raises
(fault injection for the `collection.aggregate` network call), and the
documents of the `conversations` collection. -/
structure DbState where
  connected : Bool
  connect_ok : Bool
  agg_fail : Bool
  docs : List Doc
  deriving DecidableEq

/-- `ChatMessage` (src/app/models/chat.py). -/
structure ChatMessage where
  role : String
  content : String
  timestamp : Option Nat
  deriving DecidableEq

/-- Pydantic construction of `ChatMessage`: the `role` validator restricts to
`user`/`assistant` and `content` carries `min_length=1`; an invalid field
raises a `ValidationError`, modelled as `Except.error`. -/
def mkChatMessage (role : String) (content : String) (timestamp : Option Nat) :
    Except String ChatMessage :=
  if role ≠ "user" ∧ role ≠ "assistant" then
    Except.error "Role must be user or assistant"
  else if content.length < 1 then
    Except.error "content: ensure this value has at least 1 characters"
  else
    Except.ok ⟨role, content, timestamp⟩

/-- `ConversationHistory` (src/app/models/chat.py). -/
structure ConversationHistory where
  conversation_id : String
  messages : List ChatMessage
  created_at : Option Nat
  updated_at : Option Nat
  message_count : Nat
  deriving DecidableEq

/-- `ConversationSummary` (src/app/models/chat.py). -/
structure ConversationSummary where
  conversation_id : String
  first_message : Option String
  last_message : Option String
  message_count : Nat
  created_at : Option Nat
  updated_at : Option Nat
  deriving DecidableEq

/-! ### Validators (src/app/utils/validators.py) -/

/-- The character class `[a-zA-Z0-9_-]`. -/
def isWordChar (c : Char) : Bool :=
  ('a' ≤ c && c ≤ 'z') || ('A' ≤ c && c ≤ 'Z') || ('0' ≤ c && c ≤ '9') ||
    c == '_' || c == '-'

/-- Python `re` semantics of `$` (no `re.MULTILINE`): it matches at the end
of the string and also just before one newline ending the string, so the
overall match may leave a single trailing newline unconsumed. -/
def dropTrailingNewline (cs : List Char) : List Char :=
  if cs.getLast? = some '\n' then cs.dropLast else cs

/-- `re.match(r'^[a-zA-Z0-9_-]+$', s) is not None`. -/
def regexMatches (s : String) : Bool :=
  let ws := dropTrailingNewline s.toList
  !ws.isEmpty && ws.all isWordChar

/-- `validate_conversation_id` (src/app/utils/validators.py), returning the
`(is_valid, error_message)` tuple. -/
def validate_conversation_id (conversation_id : String) : Bool × Option String :=
  if conversation_id = "" then
    (false, some "Conversation ID cannot be empty")
  else if !(regexMatches conversation_id) then
    (false, some "Conversation ID contains invalid characters")
  else if conversation_id.length > 100 then
    (false, some "Conversation ID is too long")
  else
    (true, none)

/-! ### ChatService (src/app/services/chat.py) -/

/-- The `get_database() is None → connect()` prelude shared by
`_get_collection`, `_store_message`, `get_conversation_history` and
`delete_conversation`: missing handle triggers a reconnect whose failure
raises. -/
def ensureConnected (st : DbState) : Except String DbState :=
  if st.connected then Except.ok st
  else if st.connect_ok then Except.ok { st with connected := true }
  else Except.error "Database connection failed"

/-- `ChatService._store_message`: reconnects if needed (failure re-raised),
then inserts exactly one exchange document stamped with the single `now`
instant for both `timestamp` and `created_at`. -/
def store_message (st : DbState) (conversation_id user_message assistant_message : String)
    (now : Nat) : Except String DbState := do
  let st2 ← ensureConnected st
  let doc : Doc :=
    { conversation_id := conversation_id
      user_message := user_message
      assistant_message := assistant_message
      timestamp := now
      created_at := now
      message_length := user_message.length + assistant_message.length }
  Except.ok { st2 with docs := st2.docs ++ [doc] }

/-- The `{response, conversation_id, timestamp}` dictionary returned by
`ChatService.send_message`. -/
structure SendResult where
  response : String
  conversation_id : String
  timestamp : Nat
  deriving DecidableEq

/-- `if not conversation_id:` — an absent or empty id is replaced by a fresh
`generate_conversation_id()` value. -/
def resolvedId (conversation_id : Option String) (fresh_id : String) : String :=
  match conversation_id with
  | none => fresh_id
  | some c => if c = "" then fresh_id else c

/-- `ChatService.send_message`.  The outcome of
`ai_service.generate_response` and the id `generate_conversation_id()` would
produce are passed explicitly.  An AI failure propagates unchanged; a
failure of `_store_message` is logged and swallowed, the response is still
returned. -/
def send_message (st : DbState) (message : String) (conversation_id : Option String)
    (ai_result : Except String String) (fresh_id : String) (now : Nat) :
    Except String (SendResult × DbState) := do
  let cid := resolvedId conversation_id fresh_id
  let response_text ← ai_result
  let st2 :=
    match store_message st cid message response_text now with
    | Except.ok stNew => stNew
    | Except.error _ => st
  Except.ok ({ response := response_text, conversation_id := cid, timestamp := now }, st2)

/-- Ascending-`timestamp` order used by `.sort("timestamp", 1)` and by the
first `$sort` stage of the summary pipeline. -/
def docLe (a b : Doc) : Prop := a.timestamp ≤ b.timestamp

instance : DecidableRel docLe := fun a b => Nat.decLe a.timestamp b.timestamp

instance : IsTotal Doc docLe := ⟨fun a b => Nat.le_total a.timestamp b.timestamp⟩

instance : IsTrans Doc docLe := ⟨fun _ _ _ h h2 => Nat.le_trans h h2⟩

/-- The store's timestamp-ascending sort (a stable sort, matching the spec's
tie-break rule that equal timestamps keep insertion order). -/
def sortedByTimestamp (docs : List Doc) : List Doc := List.insertionSort docLe docs

/-- The cursor loop of `get_conversation_history`: each document expands into
a `user` message carrying `user_message` followed by an `assistant` message
carrying `assistant_message`, both stamped with the document's timestamp; a
pydantic validation failure aborts (and is re-raised by) the whole call. -/
def expandDocs : List Doc → Except String (List ChatMessage)
  | [] => Except.ok []
  | d :: ds => do
    let u ← mkChatMessage "user" d.user_message (some d.timestamp)
    let a ← mkChatMessage "assistant" d.assistant_message (some d.timestamp)
    let rest ← expandDocs ds
    Except.ok (u :: a :: rest)

/-- `ChatService.get_conversation_history` (its Python `limit` defaults to
50): matching documents sorted by timestamp ascending, capped at `limit`,
expanded two messages per exchange; `created_at` is taken from the first
document scanned and `updated_at` from the last. -/
def get_conversation_history (st : DbState) (conversation_id : String) (limit : Nat) :
    Except String ConversationHistory := do
  let _ ← ensureConnected st
  let docs :=
    (sortedByTimestamp (st.docs.filter (fun d => d.conversation_id == conversation_id))).take
      limit
  let msgs ← expandDocs docs
  Except.ok
    { conversation_id := conversation_id
      messages := msgs
      created_at := docs.head?.map (fun d => d.created_at)
      updated_at := docs.getLast?.map (fun d => d.timestamp)
      message_count := msgs.length }

/-- Last element of the nonempty list `d :: ds` (the `$last` accumulator of
the pipeline's group stage). -/
def lastD (d : Doc) : List Doc → Doc
  | [] => d
  | x :: xs => lastD x xs

/-- The `$group` stage applied to the timestamp-sorted documents of one
conversation id: `$first`/`$last` of `user_message`, `$sum 1` exchange
count, `$min` of `created_at`, `$max` of `timestamp`.  `none` on an empty
group (an id owning no documents). -/
def summarizeGroup (id : String) : List Doc → Option ConversationSummary
  | [] => none
  | d :: ds =>
    some
      { conversation_id := id
        first_message := some d.user_message
        last_message := some (lastD d ds).user_message
        message_count := ds.length + 1
        created_at := some (ds.foldl (fun acc x => Nat.min acc x.created_at) d.created_at)
        updated_at := some (ds.foldl (fun acc x => Nat.max acc x.timestamp) d.timestamp) }

/-- Distinct grouping keys in order of first appearance. -/
def uniqueKeys : List String → List String
  | [] => []
  | x :: xs => x :: (uniqueKeys xs).filter (fun y => y != x)

/-- The timestamp-sorted documents of one conversation id. -/
def groupFor (docs : List Doc) (id : String) : List Doc :=
  (sortedByTimestamp docs).filter (fun d => d.conversation_id == id)

/-- The `$sort {timestamp: 1}` + `$group {_id: $conversation_id, ...}` stages
of the summary pipeline. -/
def aggregateSummaries (docs : List Doc) : List ConversationSummary :=
  (uniqueKeys ((sortedByTimestamp docs).map (fun d => d.conversation_id))).filterMap
    (fun id => summarizeGroup id (groupFor docs id))

/-- `updated_at`-descending order of the pipeline's second `$sort` stage (the
aggregation always fills `updated_at`, so comparing through `getD 0` is
exact). -/
def summaryGe (a b : ConversationSummary) : Prop :=
  b.updated_at.getD 0 ≤ a.updated_at.getD 0

instance : DecidableRel summaryGe := fun a b =>
  Nat.decLe (b.updated_at.getD 0) (a.updated_at.getD 0)

instance : IsTotal ConversationSummary summaryGe :=
  ⟨fun a b => Nat.le_total (b.updated_at.getD 0) (a.updated_at.getD 0)⟩

instance : IsTrans ConversationSummary summaryGe :=
  ⟨fun _ _ _ h h2 => Nat.le_trans h2 h⟩

/-- Body of `get_conversation_summaries` once a database handle is secured:
the `count_documents` emptiness shortcut, the aggregation pipeline
(`$sort`, `$group`, `$sort` descending, `$limit`), and the driver-side loop
that skips groups with a falsy `_id`.  `Except.error` models the aggregate
call raising. -/
def summariesBody (st : DbState) (limit : Nat) : Except String (List ConversationSummary) :=
  if st.docs.isEmpty then Except.ok []
  else if st.agg_fail then Except.error "aggregate failed"
  else
    Except.ok
      (((List.insertionSort summaryGe (aggregateSummaries st.docs)).take limit).filter
        (fun s => s.conversation_id != ""))

/-- `ChatService.get_conversation_summaries`: a missing handle triggers a
reconnect whose failure returns `[]`; every exception escaping the body is
caught and also turned into `[]` (both `except` branches return `[]`), so
the function is total and never raises. -/
def get_conversation_summaries (st : DbState) (limit : Nat) : List ConversationSummary :=
  if st.connected then
    match summariesBody st limit with
    | Except.ok l => l
    | Except.error _ => []
  else if st.connect_ok then
    match summariesBody { st with connected := true } limit with
    | Except.ok l => l
    | Except.error _ => []
  else []

/-- `ChatService.delete_conversation`: `delete_many({conversation_id})`,
returning `deleted_count > 0`; storage errors are re-raised. -/
def delete_conversation (st : DbState) (conversation_id : String) :
    Except String (Bool × DbState) := do
  let st2 ← ensureConnected st
  let matching := st2.docs.filter (fun d => d.conversation_id == conversation_id)
  Except.ok
    (decide (0 < matching.length),
      { st2 with docs := st2.docs.filter (fun d => d.conversation_id != conversation_id) })

/-- HTTP status produced by `DELETE /chat/conversations/{id}`
(src/app/routes/chat.py): 400 on an invalid id, 404 when nothing was
deleted, 500 when the service raised, 200 on success. -/
def delete_conversation_route (st : DbState) (conversation_id : String) : Nat :=
  if (validate_conversation_id conversation_id).1 = false then 400
  else
    match delete_conversation st conversation_id with
    | Except.ok (true, _) => 200
    | Except.ok (false, _) => 404
    | Except.error _ => 500

/-! ### GapAnalysisService (src/app/services/gap_analysis.py) -/

/-- Python substring containment (`kw in s`) over character lists. -/
def containsSub (needle : List Char) : List Char → Bool
  | [] => needle.isEmpty
  | c :: cs => needle.isPrefixOf (c :: cs) || containsSub needle cs

/-- `keyword in msg.content.lower()` — all keywords are ASCII lowercase, so
`str.lower()` is the per-character ASCII lowering. -/
def keywordIn (kw : String) (content : String) : Bool :=
  containsSub kw.toList (content.toList.map Char.toLower)

def detailKeywords : List String :=
  ["how", "why", "what", "when", "where", "example", "specific"]

def actionKeywords : List String :=
  ["next", "step", "action", "do", "should", "recommend"]

/-- `[msg for msg in history.messages if msg.role == "user"]`. -/
def usersOf (msgs : List ChatMessage) : List ChatMessage :=
  msgs.filter (fun m => m.role == "user")

/-- `[msg for msg in history.messages if msg.role == "assistant"]`. -/
def aisOf (msgs : List ChatMessage) : List ChatMessage :=
  msgs.filter (fun m => m.role == "assistant")

/-- `sum(msg.content.count("?") for msg in msgs)`. -/
def countQuestionMarks (msgs : List ChatMessage) : Nat :=
  (msgs.map (fun m => m.content.toList.count '?')).sum

/-- One detected gap finding (`type`, `severity`, `description`,
`suggestion`). -/
structure Gap where
  type : String
  severity : String
  description : String
  suggestion : String
  deriving DecidableEq

def gapMissingContext : Gap :=
  ⟨"missing_context", "medium", "Conversation lacks sufficient context",
    "Provide more background information or ask follow-up questions"⟩

def gapNoFollowup : Gap :=
  ⟨"no_followup", "low", "Single exchange without follow-up",
    "Consider asking follow-up questions to deepen the conversation"⟩

def gapShortResponses : Gap :=
  ⟨"short_responses", "low", "Many responses are quite brief",
    "Ask for more detailed explanations or examples"⟩

def gapMissingDetails : Gap :=
  ⟨"missing_details", "medium", "Conversation may lack specific details",
    "Ask specific questions using \x27how\x27, \x27why\x27, \x27what\x27, or request examples"⟩

def gapNoActionItems : Gap :=
  ⟨"no_action_items", "low", "No clear action items or next steps identified",
    "Ask about next steps or actionable recommendations"⟩

def gapUnansweredQuestions : Gap :=
  ⟨"unanswered_questions", "high", "More questions asked than answered",
    "Review responses to ensure all questions are addressed"⟩

/-- Gap 1 trigger: `len(user_messages) < 2`. -/
def trigMissingContext (msgs : List ChatMessage) : Bool :=
  decide ((usersOf msgs).length < 2)

/-- Gap 2 trigger: `len(user_messages) == 1 and len(ai_messages) == 1`. -/
def trigNoFollowup (msgs : List ChatMessage) : Bool :=
  (usersOf msgs).length == 1 && (aisOf msgs).length == 1

/-- `[msg for msg in ai_messages if len(msg.content) < 50]`. -/
def shortsOf (msgs : List ChatMessage) : List ChatMessage :=
  (aisOf msgs).filter (fun m => decide (m.content.length < 50))

/-- Gap 3 trigger: `len(short_responses) > len(ai_messages) * 0.5`.  `n * 0.5`
is exact in binary floating point, so over the integers this is
`ai < 2 * short`. -/
def trigShortResponses (msgs : List ChatMessage) : Bool :=
  decide ((aisOf msgs).length < 2 * (shortsOf msgs).length)

/-- Gap 4 trigger: no detail keyword occurs in any user message and
`len(user_messages) > 2`. -/
def trigMissingDetails (msgs : List ChatMessage) : Bool :=
  !(usersOf msgs).any (fun m => detailKeywords.any (fun kw => keywordIn kw m.content)) &&
    decide (2 < (usersOf msgs).length)

/-- Gap 5 trigger: no action keyword occurs in any user message and
`len(user_messages) > 3`. -/
def trigNoActionItems (msgs : List ChatMessage) : Bool :=
  !(usersOf msgs).any (fun m => actionKeywords.any (fun kw => keywordIn kw m.content)) &&
    decide (3 < (usersOf msgs).length)

/-- Gap 6 trigger: `question_marks > len(ai_messages)`. -/
def trigUnanswered (msgs : List ChatMessage) : Bool :=
  decide ((aisOf msgs).length < countQuestionMarks (usersOf msgs))

/-- The `gaps` list accumulated by the six sequential checks. -/
def gapsOf (msgs : List ChatMessage) : List Gap :=
  (if trigMissingContext msgs then [gapMissingContext] else []) ++
  (if trigNoFollowup msgs then [gapNoFollowup] else []) ++
  (if trigShortResponses msgs then [gapShortResponses] else []) ++
  (if trigMissingDetails msgs then [gapMissingDetails] else []) ++
  (if trigNoActionItems msgs then [gapNoActionItems] else []) ++
  (if trigUnanswered msgs then [gapUnansweredQuestions] else [])

/-- `completeness_score` as accumulated by the checks, before the final
`max(0, ...)` clamp in the metrics. -/
def rawScore (msgs : List ChatMessage) : Int :=
  100 - (if trigMissingContext msgs then 20 else 0)
      - (if trigNoFollowup msgs then 10 else 0)
      - (if trigShortResponses msgs then 15 else 0)
      - (if trigMissingDetails msgs then 15 else 0)
      - (if trigNoActionItems msgs then 10 else 0)
      - (if trigUnanswered msgs then 25 else 0)

/-- The integer-valued metrics of the analysis (the float
`average_message_length`, an IEEE division of the total content length by
the message count, is outside the embedding and carried nowhere by the
claims). -/
structure AnalysisMetrics where
  total_messages : Nat
  user_messages : Nat
  ai_messages : Nat
  questions_asked : Nat
  completeness_score : Int
  deriving DecidableEq

structure SeverityBreakdown where
  high : Nat
  medium : Nat
  low : Nat
  deriving DecidableEq

/-- The dictionary returned by `analyze_conversation`; keys absent on the
`empty`/`error` paths are `Option`-valued. -/
structure GapAnalysisResult where
  conversation_id : String
  status : String
  gaps : List Gap
  suggestions : List String
  completeness_score : Int
  error : Option String
  metrics : Option AnalysisMetrics
  gap_count : Option Nat
  severity_breakdown : Option SeverityBreakdown
  deriving DecidableEq

/-- The analysed branch of `GapAnalysisService.analyze_conversation`
(everything after the history fetch, for a non-empty message list). -/
def analyze_messages (conversation_id : String) (msgs : List ChatMessage) :
    GapAnalysisResult :=
  let gaps := gapsOf msgs
  let finalScore : Int := max 0 (rawScore msgs)
  { conversation_id := conversation_id
    status := "analyzed"
    gaps := gaps
    suggestions :=
      if gaps.isEmpty then ["✅ Conversation appears complete and well-structured"]
      else gaps.map (fun g => g.suggestion)
    completeness_score := finalScore
    error := none
    metrics := some
      { total_messages := msgs.length
        user_messages := (usersOf msgs).length
        ai_messages := (aisOf msgs).length
        questions_asked := countQuestionMarks (usersOf msgs)
        completeness_score := finalScore }
    gap_count := some gaps.length
    severity_breakdown := some
      { high := (gaps.filter (fun g => g.severity == "high")).length
        medium := (gaps.filter (fun g => g.severity == "medium")).length
        low := (gaps.filter (fun g => g.severity == "low")).length } }

/-- `GapAnalysisService.analyze_conversation`: fetches the history through
`ChatService.get_conversation_history` (Python default `limit=50`); a raised
exception yields the `error` dictionary, an empty history the `empty`
dictionary. -/
def analyze_conversation (st : DbState) (conversation_id : String) : GapAnalysisResult :=
  match get_conversation_history st conversation_id 50 with
  | Except.error e =>
    { conversation_id := conversation_id, status := "error", gaps := [], suggestions := []
      completeness_score := 0, error := some e, metrics := none, gap_count := none
      severity_breakdown := none }
  | Except.ok history =>
    if history.messages.isEmpty then
      { conversation_id := conversation_id, status := "empty", gaps := []
        suggestions := ["Start a conversation to analyze gaps"]
        completeness_score := 0, error := none, metrics := none, gap_count := none
        severity_breakdown := none }
    else analyze_messages conversation_id history.messages

/-! ### Statement helpers (used only to state properties) -/

/-- Statement helper: the fixed per-rule score penalty keyed by gap type. -/
def gapPenalty (t : String) : Int :=
  if t = "missing_context" then 20
  else if t = "no_followup" then 10
  else if t = "short_responses" then 15
  else if t = "missing_details" then 15
  else if t = "no_action_items" then 10
  else if t = "unanswered_questions" then 25
  else 0

/-- Statement helper: cumulative penalty of a gap list. -/
def totalPenalty (gaps : List Gap) : Int :=
  (gaps.map (fun g => gapPenalty g.type)).sum

/-- Statement helper: the timestamps carried by a message list. -/
def msgTimes (msgs : List ChatMessage) : List Nat :=
  msgs.filterMap (fun m => m.timestamp)

/-- Statement helper: each document's timestamp listed twice, in order —
the timestamps a faithful two-messages-per-exchange expansion must carry. -/
def dupTimes : List Doc → List Nat
  | [] => []
  | d :: ds => d.timestamp :: d.timestamp :: dupTimes ds

/-- Statement helper: `msgs` is the exchange list `ds` expanded into exactly
two role-tagged messages per exchange, `user` carrying `user_message` then
`assistant` carrying `assistant_message`, both stamped with the exchange
timestamp. -/
def pairedWith : List Doc → List ChatMessage → Prop
  | [], [] => True
  | d :: ds, u :: a :: ms =>
    u.role = "user" ∧ u.content = d.user_message ∧ u.timestamp = some d.timestamp ∧
    a.role = "assistant" ∧ a.content = d.assistant_message ∧ a.timestamp = some d.timestamp ∧
    pairedWith ds ms
  | _, _ => False

/-- The acceptance predicate exactly as claim C9 words it (refinement
target, deliberately not the code's semantics): non-empty, every character
in `[a-zA-Z0-9_-]`, at most 100 characters. -/
def spec_accepts (s : String) : Bool :=
  !s.toList.isEmpty && s.toList.all isWordChar && decide (s.length ≤ 100)

/-! ### Concrete stores and histories used by witnesses and counterexamples -/

def c1cexSt : DbState :=
  ⟨true, true, false, (List.range 51).map (fun i => ⟨"c", "u", "v", i, i, 2⟩)⟩

def c1wSt : DbState :=
  ⟨true, true, false,
    [⟨"x", "first question", "first answer", 5, 5, 26⟩,
     ⟨"x", "second question", "second answer", 9, 9, 28⟩]⟩

def c4St : DbState := ⟨true, true, false, [⟨"c", "hi", "", 1, 1, 2⟩]⟩

def c5cexSt : DbState := ⟨true, true, false, [⟨"c", "??", "hi", 1, 1, 4⟩]⟩

def longReply : String :=
  "This assistant reply is long enough to exceed the fifty character threshold."

def c5wSt : DbState := ⟨true, true, false, [⟨"c", "hello there", longReply, 1, 1, 0⟩]⟩

def c5hist : ConversationHistory :=
  ⟨"c", [⟨"user", "hello there", some 1⟩, ⟨"assistant", longReply, some 1⟩], some 1, some 1, 2⟩

def c6wSt : DbState := ⟨true, true, false, [⟨"c", "a???", "ok", 1, 1, 6⟩]⟩

def c6hist : ConversationHistory :=
  ⟨"c", [⟨"user", "a???", some 1⟩, ⟨"assistant", "ok", some 1⟩], some 1, some 1, 2⟩

def c7wSt : DbState := ⟨true, true, false, [⟨"x", "u", "v", 1, 1, 2⟩]⟩

def c7cexSt : DbState := ⟨true, true, false, [⟨"", "u", "v", 1, 1, 2⟩]⟩

def c8wSt : DbState := ⟨true, true, false, [⟨"a", "u", "v", 1, 1, 2⟩]⟩

def c10wSt : DbState := ⟨true, true, false, [⟨"c", "hmm", "fine answer", 1, 1, 0⟩]⟩

def c10hist : ConversationHistory :=
  ⟨"c", [⟨"user", "hmm", some 1⟩, ⟨"assistant", "fine answer", some 1⟩], some 1, some 1, 2⟩

/-! ### C2 — storage failure does not fail `send_message` -/

/-- C2: when the AI call succeeds with text `t` but the storage write
`_store_message` raises, `send_message` still returns the response text, the
resolved conversation id and the timestamp, leaving the store untouched —
the storage failure is swallowed, not propagated. -/
theorem send_message_survives_storage_failure (st : DbState) (message : String)
    (conversation_id : Option String) (t fresh_id : String) (now : Nat) (e : String)
    (hStore : store_message st (resolvedId conversation_id fresh_id) message t now =
      Except.error e) :
    send_message st message conversation_id (Except.ok t) fresh_id now =
      Except.ok
        ({ response := t, conversation_id := resolvedId conversation_id fresh_id,
           timestamp := now }, st) := by
  simp [send_message, bind, Except.bind, hStore]

theorem send_message_survives_storage_failure_witness :
    send_message ⟨false, false, false, []⟩ "hi" none (Except.ok "resp") "conv_a1" 7 =
      Except.ok
        ({ response := "resp", conversation_id := "conv_a1", timestamp := 7 },
          (⟨false, false, false, []⟩ : DbState)) :=
  send_message_survives_storage_failure ⟨false, false, false, []⟩ "hi" none "resp" "conv_a1" 7
    "Database connection failed" rfl

/-! ### C3 — `get_conversation_summaries` never raises -/

/-- C3: `get_conversation_summaries` is a total function into a plain list
(it cannot raise), and on every enumerated failure state — disconnected
store whose reconnect fails, empty store, or a raising aggregation — it
returns the empty list. -/
theorem get_conversation_summaries_never_raises (st : DbState) (limit : Nat) :
    (st.connected = false → st.connect_ok = false →
      get_conversation_summaries st limit = []) ∧
    (st.docs = [] → get_conversation_summaries st limit = []) ∧
    (st.agg_fail = true → get_conversation_summaries st limit = []) := by
  refine ⟨fun h1 h2 => ?_, fun h => ?_, fun h => ?_⟩
  · simp [get_conversation_summaries, h1, h2]
  · by_cases hc : st.connected
    · simp [get_conversation_summaries, hc, summariesBody, h]
    · by_cases hk : st.connect_ok
      · simp [get_conversation_summaries, hc, hk, summariesBody, h]
      · simp [get_conversation_summaries, hc, hk]
  · by_cases hd : st.docs.isEmpty
    · by_cases hc : st.connected
      · simp [get_conversation_summaries, hc, summariesBody, hd]
      · by_cases hk : st.connect_ok
        · simp [get_conversation_summaries, hc, hk, summariesBody, hd]
        · simp [get_conversation_summaries, hc, hk]
    · by_cases hc : st.connected
      · simp [get_conversation_summaries, hc, summariesBody, hd, h]
      · by_cases hk : st.connect_ok
        · simp [get_conversation_summaries, hc, hk, summariesBody, hd, h]
        · simp [get_conversation_summaries, hc, hk]

theorem get_conversation_summaries_never_raises_witness :
    get_conversation_summaries ⟨false, false, true, []⟩ 20 = [] :=
  (get_conversation_summaries_never_raises ⟨false, false, true, []⟩ 20).1 rfl rfl

/-! ### C4 — empty assistant text breaks history reconstruction (code bug) -/

/-- C4: the spec declares `assistant_message` may be empty and that history
reconstruction succeeds; the code stores such an exchange without complaint,
but `get_conversation_history` then raises, because the `ChatMessage`
pydantic model it rebuilds enforces `min_length=1` on `content` — the read
path rejects what the write path accepted. -/
theorem history_fails_on_empty_assistant_message :
    ∃ e, get_conversation_history c4St "c" 50 = Except.error e :=
  ⟨_, rfl⟩

/-! ### C9 — conversation id validation -/

theorem validate_id_true_iff (s : String) :
    (validate_conversation_id s).1 = true ↔
      (regexMatches s = true ∧ s.length ≤ 100) := by
  unfold validate_conversation_id
  split_ifs with h1 h2 h3
  · subst h1
    simp only [false_iff, not_and]
    intro hr
    exact absurd hr (by decide)
  · simp only [false_iff, not_and]
    intro hr
    rw [Bool.not_eq_true'] at h2
    simp [h2] at hr
  · simp only [false_iff, not_and]
    intro _
    omega
  · simp only [true_iff]
    refine ⟨?_, by omega⟩
    simpa using h2

theorem regexMatches_iff (s : String) :
    regexMatches s = true ↔
      ∃ w nl : List Char, s.toList = w ++ nl ∧ (nl = [] ∨ nl = ['\n']) ∧
        w ≠ [] ∧ w.all isWordChar = true := by
  unfold regexMatches dropTrailingNewline
  constructor
  · intro h
    by_cases hl : s.toList.getLast? = some '\n'
    · rw [if_pos hl] at h
      simp only [Bool.and_eq_true, Bool.not_eq_true'] at h
      obtain ⟨h1, h2⟩ := h
      refine ⟨s.toList.dropLast, ['\n'], ?_, Or.inr rfl, ?_, h2⟩
      · exact (List.dropLast_append_getLast? '\n' (Option.mem_def.mpr hl)).symm
      · intro h0
        rw [h0] at h1
        simp at h1
    · rw [if_neg hl] at h
      simp only [Bool.and_eq_true, Bool.not_eq_true'] at h
      obtain ⟨h1, h2⟩ := h
      refine ⟨s.toList, [], by simp, Or.inl rfl, ?_, h2⟩
      intro h0
      rw [h0] at h1
      simp at h1
  · rintro ⟨w, nl, hs, hnl | hnl, hw, hall⟩
    · subst hnl
      rw [List.append_nil] at hs
      rw [hs]
      have hlast : w.getLast? ≠ some '\n' := by
        intro hc
        rw [List.getLast?_eq_getLast w hw] at hc
        have hmem : w.getLast hw ∈ w := List.getLast_mem hw
        have hword : isWordChar (w.getLast hw) = true := List.all_eq_true.mp hall _ hmem
        rw [Option.some_inj.mp hc] at hword
        exact absurd hword (by decide)
      rw [if_neg hlast]
      simp [hall, List.isEmpty_eq_false.mpr hw]
    · subst hnl
      rw [hs, List.getLast?_concat, if_pos rfl, List.dropLast_concat]
      simp [hall, List.isEmpty_eq_false.mpr hw]

/-- C9 counterexample: the claim says every string not matching
`^[a-zA-Z0-9_-]+$` (length ≤ 100) is rejected, but the code accepts
`"abc\n"`: Python's `$` also matches just before a single trailing
newline. -/
theorem validate_id_counterexample :
    (validate_conversation_id "abc\n").1 = true ∧ spec_accepts "abc\n" = false :=
  ⟨by decide, by decide⟩

/-- C9 (amended): `validate_conversation_id` accepts exactly the strings of
length ≤ 100 made of one or more `[a-zA-Z0-9_-]` characters followed by an
optional single trailing newline (Python `$` semantics); in particular
`"abc 123"` is rejected and `"abc-123_ok"` is accepted. -/
theorem validate_conversation_id_characterization :
    (∀ s : String,
      ((validate_conversation_id s).1 = true ↔
        ∃ w nl : List Char, s.toList = w ++ nl ∧ (nl = [] ∨ nl = ['\n']) ∧
          w ≠ [] ∧ w.all isWordChar = true ∧ s.length ≤ 100)) ∧
    (validate_conversation_id "abc 123").1 = false ∧
    (validate_conversation_id "abc-123_ok").1 = true := by
  refine ⟨fun s => ?_, by decide, by decide⟩
  rw [validate_id_true_iff]
  constructor
  · rintro ⟨hr, hlen⟩
    obtain ⟨w, nl, h1, h2, h3, h4⟩ := (regexMatches_iff s).mp hr
    exact ⟨w, nl, h1, h2, h3, h4, hlen⟩
  · rintro ⟨w, nl, h1, h2, h3, h4, hlen⟩
    exact ⟨(regexMatches_iff s).mpr ⟨w, nl, h1, h2, h3, h4⟩, hlen⟩

/-! ### C8 — delete semantics and the 404 mapping -/

/-- C8: on a reachable store with a valid id, `delete_conversation` on an id
owning no exchanges returns `false` without raising and the HTTP route maps
that to 404; on an id owning at least one exchange it removes every exchange
of that conversation, returns `true`, and the route answers success. -/
theorem delete_conversation_semantics (st : DbState) (cid : String)
    (hc : st.connected = true) (hv : (validate_conversation_id cid).1 = true) :
    (st.docs.filter (fun d => d.conversation_id == cid) = [] →
      (∃ st2, delete_conversation st cid = Except.ok (false, st2) ∧ st2.docs = st.docs) ∧
      delete_conversation_route st cid = 404) ∧
    (st.docs.filter (fun d => d.conversation_id == cid) ≠ [] →
      ∃ st2, delete_conversation st cid = Except.ok (true, st2) ∧
        st2.docs.filter (fun d => d.conversation_id == cid) = [] ∧
        delete_conversation_route st cid = 200) := by
  have hensure : ensureConnected st = Except.ok st := by
    simp [ensureConnected, hc]
  have hvr : ¬((validate_conversation_id cid).1 = false) := by
    rw [hv]; simp
  constructor
  · intro hempty
    have hfalse : decide (0 < (st.docs.filter (fun d => d.conversation_id == cid)).length) =
        false := by
      rw [hempty]; rfl
    have hkeep : st.docs.filter (fun d => d.conversation_id != cid) = st.docs := by
      apply List.filter_eq_self.mpr
      intro d hd
      have hnb : ¬(d.conversation_id == cid) = true := by
        intro hb
        have hmem : d ∈ st.docs.filter (fun d => d.conversation_id == cid) :=
          List.mem_filter.mpr ⟨hd, hb⟩
        rw [hempty] at hmem
        cases hmem
      have hbeq : (d.conversation_id == cid) = false := Bool.eq_false_iff.mpr hnb
      simp [bne, hbeq]
    have hdel : delete_conversation st cid =
        Except.ok (false, { st with docs := st.docs }) := by
      simp [delete_conversation, hensure, bind, Except.bind, hfalse, hkeep]
    refine ⟨⟨{ st with docs := st.docs }, hdel, rfl⟩, ?_⟩
    simp [delete_conversation_route, hdel, if_neg hvr]
  · intro hne
    have hpos : 0 < (st.docs.filter (fun d => d.conversation_id == cid)).length :=
      List.length_pos.mpr hne
    have htrue : decide (0 < (st.docs.filter (fun d => d.conversation_id == cid)).length) =
        true := decide_eq_true hpos
    have hdel : delete_conversation st cid =
        Except.ok (true,
          { st with docs := st.docs.filter (fun d => d.conversation_id != cid) }) := by
      simp [delete_conversation, hensure, bind, Except.bind, htrue]
    refine ⟨_, hdel, ?_, ?_⟩
    · apply List.filter_eq_nil_iff.mpr
      intro d hd
      have hb : (d.conversation_id != cid) = true := (List.mem_filter.mp hd).2
      simp only [bne, Bool.not_eq_true'] at hb
      simp [hb]
    · simp [delete_conversation_route, hdel, if_neg hvr]

theorem delete_conversation_semantics_witness :
    (∃ st2, delete_conversation c8wSt "b" = Except.ok (false, st2) ∧ st2.docs = c8wSt.docs) ∧
    delete_conversation_route c8wSt "b" = 404 :=
  (delete_conversation_semantics c8wSt "b" rfl (by decide)).1 (by decide)

/-! ### Gap-analysis helper lemmas -/

theorem mem_ite_singleton {c : Prop} [Decidable c] {x g : Gap} :
    (g ∈ if c then [x] else []) ↔ c ∧ g = x := by
  split_ifs with h <;> simp [h]

theorem mem_gapsOf {msgs : List ChatMessage} {g : Gap} :
    g ∈ gapsOf msgs ↔
      (trigMissingContext msgs = true ∧ g = gapMissingContext) ∨
      (trigNoFollowup msgs = true ∧ g = gapNoFollowup) ∨
      (trigShortResponses msgs = true ∧ g = gapShortResponses) ∨
      (trigMissingDetails msgs = true ∧ g = gapMissingDetails) ∨
      (trigNoActionItems msgs = true ∧ g = gapNoActionItems) ∨
      (trigUnanswered msgs = true ∧ g = gapUnansweredQuestions) := by
  simp only [gapsOf, List.mem_append, mem_ite_singleton]
  tauto

theorem totalPenalty_append (l1 l2 : List Gap) :
    totalPenalty (l1 ++ l2) = totalPenalty l1 + totalPenalty l2 := by
  simp [totalPenalty]

theorem totalPenalty_ite {c : Prop} [Decidable c] (g : Gap) :
    totalPenalty (if c then [g] else []) = if c then gapPenalty g.type else 0 := by
  split_ifs <;> simp [totalPenalty]

theorem totalPenalty_gapsOf (msgs : List ChatMessage) :
    totalPenalty (gapsOf msgs) =
      (if trigMissingContext msgs then (20 : Int) else 0) +
      (if trigNoFollowup msgs then (10 : Int) else 0) +
      (if trigShortResponses msgs then (15 : Int) else 0) +
      (if trigMissingDetails msgs then (15 : Int) else 0) +
      (if trigNoActionItems msgs then (10 : Int) else 0) +
      (if trigUnanswered msgs then (25 : Int) else 0) := by
  unfold gapsOf
  rw [totalPenalty_append, totalPenalty_append, totalPenalty_append, totalPenalty_append,
    totalPenalty_append, totalPenalty_ite, totalPenalty_ite, totalPenalty_ite,
    totalPenalty_ite, totalPenalty_ite, totalPenalty_ite]
  rfl

theorem rawScore_eq (msgs : List ChatMessage) :
    rawScore msgs = 100 - totalPenalty (gapsOf msgs) := by
  rw [totalPenalty_gapsOf]
  unfold rawScore
  ring

theorem trigMissingContext_lt {msgs : List ChatMessage}
    (h : trigMissingContext msgs = true) : (usersOf msgs).length < 2 := by
  simpa [trigMissingContext] using h

theorem trigNoFollowup_eq {msgs : List ChatMessage}
    (h : trigNoFollowup msgs = true) :
    (usersOf msgs).length = 1 ∧ (aisOf msgs).length = 1 := by
  simpa [trigNoFollowup] using h

theorem trigMissingDetails_gt {msgs : List ChatMessage}
    (h : trigMissingDetails msgs = true) : 2 < (usersOf msgs).length := by
  simp only [trigMissingDetails, Bool.and_eq_true, decide_eq_true_eq] at h
  exact h.2

theorem trigNoActionItems_gt {msgs : List ChatMessage}
    (h : trigNoActionItems msgs = true) : 3 < (usersOf msgs).length := by
  simp only [trigNoActionItems, Bool.and_eq_true, decide_eq_true_eq] at h
  exact h.2

/-- The two pairs of mutually exclusive rules cap the cumulative penalty at
20 + 10 + 15 + 25 = 70. -/
theorem totalPenalty_le (msgs : List ChatMessage) : totalPenalty (gapsOf msgs) ≤ 70 := by
  have e14 : ¬(trigMissingContext msgs = true ∧ trigMissingDetails msgs = true) := by
    rintro ⟨h1, h4⟩
    have a := trigMissingContext_lt h1
    have b := trigMissingDetails_gt h4
    omega
  have e25 : ¬(trigNoFollowup msgs = true ∧ trigNoActionItems msgs = true) := by
    rintro ⟨h2, h5⟩
    have a := (trigNoFollowup_eq h2).1
    have b := trigNoActionItems_gt h5
    omega
  have hA : (if trigMissingContext msgs then (20 : Int) else 0) +
      (if trigMissingDetails msgs then (15 : Int) else 0) ≤ 20 := by
    by_cases h1 : trigMissingContext msgs = true
    · by_cases h4 : trigMissingDetails msgs = true
      · exact absurd ⟨h1, h4⟩ e14
      · norm_num [h1, h4]
    · by_cases h4 : trigMissingDetails msgs = true
      · norm_num [h1, h4]
      · norm_num [h1, h4]
  have hB : (if trigNoFollowup msgs then (10 : Int) else 0) +
      (if trigNoActionItems msgs then (10 : Int) else 0) ≤ 10 := by
    by_cases h2 : trigNoFollowup msgs = true
    · by_cases h5 : trigNoActionItems msgs = true
      · exact absurd ⟨h2, h5⟩ e25
      · norm_num [h2, h5]
    · by_cases h5 : trigNoActionItems msgs = true
      · norm_num [h2, h5]
      · norm_num [h2, h5]
  have hC : (if trigShortResponses msgs then (15 : Int) else 0) ≤ 15 := by
    split_ifs <;> norm_num
  have hD : (if trigUnanswered msgs then (25 : Int) else 0) ≤ 25 := by
    split_ifs <;> norm_num
  rw [totalPenalty_gapsOf]
  linarith

theorem analyze_messages_gaps (cid : String) (msgs : List ChatMessage) :
    (analyze_messages cid msgs).gaps = gapsOf msgs := rfl

/-- The clamp `max(0, score)` never fires: the final score is exactly
`100 - totalPenalty` and at least 30. -/
theorem completeness_eq (cid : String) (msgs : List ChatMessage) :
    (analyze_messages cid msgs).completeness_score = 100 - totalPenalty (gapsOf msgs) ∧
    30 ≤ (analyze_messages cid msgs).completeness_score := by
  have h70 := totalPenalty_le msgs
  have hraw : rawScore msgs = 100 - totalPenalty (gapsOf msgs) := rawScore_eq msgs
  have h30 : (30 : Int) ≤ rawScore msgs := by rw [hraw]; linarith
  have hmax : max 0 (rawScore msgs) = rawScore msgs := max_eq_right (by linarith)
  constructor
  · show max 0 (rawScore msgs) = 100 - totalPenalty (gapsOf msgs)
    rw [hmax, hraw]
  · show (30 : Int) ≤ max 0 (rawScore msgs)
    rw [hmax]
    exact h30

theorem analyze_conversation_fetched {st : DbState} {cid : String}
    {hist : ConversationHistory}
    (hFetch : get_conversation_history st cid 50 = Except.ok hist)
    (hne : hist.messages ≠ []) :
    analyze_conversation st cid = analyze_messages cid hist.messages := by
  have hE : hist.messages.isEmpty = false := List.isEmpty_eq_false.mpr hne
  simp only [analyze_conversation, hFetch, hE, Bool.false_eq_true, if_false]

/-! ### C10 — rule exclusivity and the score floor -/

/-- C10: for every non-empty fetched history, `missing_context` and
`missing_details` never trigger together, nor do `no_followup` and
`no_action_items`; hence the cumulative penalty never exceeds 70, the
completeness score is exactly `100 - penalty` (the `max(0, ·)` floor is
never reached) and is always at least 30. -/
theorem gap_rules_invariants (st : DbState) (cid : String) (hist : ConversationHistory)
    (hFetch : get_conversation_history st cid 50 = Except.ok hist)
    (hne : hist.messages ≠ []) :
    (¬((∃ g ∈ (analyze_conversation st cid).gaps, g.type = "missing_context") ∧
        (∃ g ∈ (analyze_conversation st cid).gaps, g.type = "missing_details"))) ∧
    (¬((∃ g ∈ (analyze_conversation st cid).gaps, g.type = "no_followup") ∧
        (∃ g ∈ (analyze_conversation st cid).gaps, g.type = "no_action_items"))) ∧
    totalPenalty (analyze_conversation st cid).gaps ≤ 70 ∧
    (analyze_conversation st cid).completeness_score =
      100 - totalPenalty (analyze_conversation st cid).gaps ∧
    30 ≤ (analyze_conversation st cid).completeness_score := by
  rw [analyze_conversation_fetched hFetch hne, analyze_messages_gaps]
  refine ⟨?_, ?_, totalPenalty_le hist.messages, (completeness_eq cid hist.messages).1,
    (completeness_eq cid hist.messages).2⟩
  · rintro ⟨⟨g, hg, ht⟩, g2, hg2, ht2⟩
    have h1 : trigMissingContext hist.messages = true := by
      rcases mem_gapsOf.mp hg with ⟨h, rfl⟩ | ⟨h, rfl⟩ | ⟨h, rfl⟩ | ⟨h, rfl⟩ | ⟨h, rfl⟩ | ⟨h, rfl⟩
      · exact h
      · exact absurd ht (by decide)
      · exact absurd ht (by decide)
      · exact absurd ht (by decide)
      · exact absurd ht (by decide)
      · exact absurd ht (by decide)
    have h4 : trigMissingDetails hist.messages = true := by
      rcases mem_gapsOf.mp hg2 with ⟨h, rfl⟩ | ⟨h, rfl⟩ | ⟨h, rfl⟩ | ⟨h, rfl⟩ | ⟨h, rfl⟩ | ⟨h, rfl⟩
      · exact absurd ht2 (by decide)
      · exact absurd ht2 (by decide)
      · exact absurd ht2 (by decide)
      · exact h
      · exact absurd ht2 (by decide)
      · exact absurd ht2 (by decide)
    have a := trigMissingContext_lt h1
    have b := trigMissingDetails_gt h4
    omega
  · rintro ⟨⟨g, hg, ht⟩, g2, hg2, ht2⟩
    have h2 : trigNoFollowup hist.messages = true := by
      rcases mem_gapsOf.mp hg with ⟨h, rfl⟩ | ⟨h, rfl⟩ | ⟨h, rfl⟩ | ⟨h, rfl⟩ | ⟨h, rfl⟩ | ⟨h, rfl⟩
      · exact absurd ht (by decide)
      · exact h
      · exact absurd ht (by decide)
      · exact absurd ht (by decide)
      · exact absurd ht (by decide)
      · exact absurd ht (by decide)
    have h5 : trigNoActionItems hist.messages = true := by
      rcases mem_gapsOf.mp hg2 with ⟨h, rfl⟩ | ⟨h, rfl⟩ | ⟨h, rfl⟩ | ⟨h, rfl⟩ | ⟨h, rfl⟩ | ⟨h, rfl⟩
      · exact absurd ht2 (by decide)
      · exact absurd ht2 (by decide)
      · exact absurd ht2 (by decide)
      · exact absurd ht2 (by decide)
      · exact h
      · exact absurd ht2 (by decide)
    have a := (trigNoFollowup_eq h2).1
    have b := trigNoActionItems_gt h5
    omega

theorem gap_rules_invariants_witness :
    (¬((∃ g ∈ (analyze_conversation c10wSt "c").gaps, g.type = "missing_context") ∧
        (∃ g ∈ (analyze_conversation c10wSt "c").gaps, g.type = "missing_details"))) ∧
    (¬((∃ g ∈ (analyze_conversation c10wSt "c").gaps, g.type = "no_followup") ∧
        (∃ g ∈ (analyze_conversation c10wSt "c").gaps, g.type = "no_action_items"))) ∧
    totalPenalty (analyze_conversation c10wSt "c").gaps ≤ 70 ∧
    (analyze_conversation c10wSt "c").completeness_score =
      100 - totalPenalty (analyze_conversation c10wSt "c").gaps ∧
    30 ≤ (analyze_conversation c10wSt "c").completeness_score :=
  gap_rules_invariants c10wSt "c" c10hist rfl (by decide)

/-! ### C5 — the single-exchange rules -/

/-- C5 counterexample: a history with exactly 1 user and 1 assistant
message whose completeness score is 30, not 70 — on this input
`short_responses` and `unanswered_questions` fire as well, which the
claim's fixed `100 - 20 - 10` ignores. -/
theorem single_exchange_score_counterexample :
    ((get_conversation_history c5cexSt "c" 50).toOption.map
        (fun h => ((usersOf h.messages).length, (aisOf h.messages).length)) =
      some (1, 1)) ∧
    (analyze_conversation c5cexSt "c").completeness_score = 30 ∧
    ¬((analyze_conversation c5cexSt "c").completeness_score = 70) :=
  ⟨rfl, by decide, by decide⟩

/-- C5 (amended): with exactly one user and one assistant message,
`missing_context` (medium) and `no_followup` (low) are always both
reported; when no further rule fires (assistant reply of at least 50
characters, at most one question mark) the completeness score is exactly
`100 - 20 - 10 = 70`. -/
theorem single_exchange_gaps (st : DbState) (cid : String) (hist : ConversationHistory)
    (hFetch : get_conversation_history st cid 50 = Except.ok hist)
    (hu : (usersOf hist.messages).length = 1)
    (ha : (aisOf hist.messages).length = 1)
    (hlong : ∀ m ∈ aisOf hist.messages, 50 ≤ m.content.length)
    (hq : countQuestionMarks (usersOf hist.messages) ≤ 1) :
    gapMissingContext ∈ (analyze_conversation st cid).gaps ∧
    gapNoFollowup ∈ (analyze_conversation st cid).gaps ∧
    (analyze_conversation st cid).completeness_score = 70 := by
  have hne : hist.messages ≠ [] := by
    intro h0
    rw [h0] at hu
    simp [usersOf] at hu
  rw [analyze_conversation_fetched hFetch hne, analyze_messages_gaps]
  have ht1 : trigMissingContext hist.messages = true := by
    simp [trigMissingContext, hu]
  have ht2 : trigNoFollowup hist.messages = true := by
    simp [trigNoFollowup, hu, ha]
  have hshort : shortsOf hist.messages = [] := by
    apply List.filter_eq_nil_iff.mpr
    intro m hm
    have h50 := hlong m hm
    simp only [decide_eq_true_eq]
    omega
  have ht3 : trigShortResponses hist.messages = false := by
    simp [trigShortResponses, hshort, ha]
  have ht4 : trigMissingDetails hist.messages = false := by
    simp [trigMissingDetails, hu]
  have ht5 : trigNoActionItems hist.messages = false := by
    simp [trigNoActionItems, hu]
  have ht6 : trigUnanswered hist.messages = false := by
    simp only [trigUnanswered, ha, decide_eq_false_iff_not]
    omega
  have hgaps : gapsOf hist.messages = [gapMissingContext, gapNoFollowup] := by
    simp [gapsOf, ht1, ht2, ht3, ht4, ht5, ht6]
  refine ⟨by rw [hgaps]; simp, by rw [hgaps]; simp, ?_⟩
  rw [(completeness_eq cid hist.messages).1, totalPenalty_gapsOf]
  norm_num [ht1, ht2, ht3, ht4, ht5, ht6]

theorem single_exchange_gaps_witness :
    gapMissingContext ∈ (analyze_conversation c5wSt "c").gaps ∧
    gapNoFollowup ∈ (analyze_conversation c5wSt "c").gaps ∧
    (analyze_conversation c5wSt "c").completeness_score = 70 :=
  single_exchange_gaps c5wSt "c" c5hist rfl (by decide) (by decide) (by decide) (by decide)

/-! ### C6 — unanswered questions -/

/-- C6: whenever the user messages carry strictly more question marks than
there are assistant messages, the `unanswered_questions` gap is reported
with severity `high` and the final completeness score sits exactly 25 below
what the remaining reported gaps alone would produce. -/
theorem unanswered_questions_gap (st : DbState) (cid : String) (hist : ConversationHistory)
    (hFetch : get_conversation_history st cid 50 = Except.ok hist)
    (hq : (aisOf hist.messages).length < countQuestionMarks (usersOf hist.messages)) :
    (∃ g ∈ (analyze_conversation st cid).gaps,
      g.type = "unanswered_questions" ∧ g.severity = "high") ∧
    (analyze_conversation st cid).completeness_score =
      75 - totalPenalty ((analyze_conversation st cid).gaps.filter
        (fun g => g.type != "unanswered_questions")) := by
  have hne : hist.messages ≠ [] := by
    intro h0
    rw [h0] at hq
    simp [usersOf, aisOf, countQuestionMarks] at hq
  rw [analyze_conversation_fetched hFetch hne, analyze_messages_gaps]
  have ht6 : trigUnanswered hist.messages = true := by
    simpa [trigUnanswered] using hq
  refine ⟨⟨gapUnansweredQuestions,
    mem_gapsOf.mpr (Or.inr (Or.inr (Or.inr (Or.inr (Or.inr ⟨ht6, rfl⟩))))), rfl, rfl⟩, ?_⟩
  have e1 : ∀ (b : Bool) (g : Gap), (g.type != "unanswered_questions") = true →
      List.filter (fun g => g.type != "unanswered_questions") (if b then [g] else []) =
        (if b then [g] else []) := by
    intro b g hg
    cases b <;> simp [hg]
  have e6 : List.filter (fun g => g.type != "unanswered_questions")
      (if trigUnanswered hist.messages then [gapUnansweredQuestions] else []) = [] := by
    rw [ht6]
    simp
    rfl
  have hfil : (gapsOf hist.messages).filter (fun g => g.type != "unanswered_questions") =
      (if trigMissingContext hist.messages then [gapMissingContext] else []) ++
      ((if trigNoFollowup hist.messages then [gapNoFollowup] else []) ++
      ((if trigShortResponses hist.messages then [gapShortResponses] else []) ++
      ((if trigMissingDetails hist.messages then [gapMissingDetails] else []) ++
      (if trigNoActionItems hist.messages then [gapNoActionItems] else [])))) := by
    unfold gapsOf
    rw [List.filter_append, List.filter_append, List.filter_append, List.filter_append,
      List.filter_append]
    rw [e1 _ gapMissingContext (by decide), e1 _ gapNoFollowup (by decide),
      e1 _ gapShortResponses (by decide), e1 _ gapMissingDetails (by decide),
      e1 _ gapNoActionItems (by decide), e6]
    simp
  rw [(completeness_eq cid hist.messages).1, totalPenalty_gapsOf, hfil]
  rw [totalPenalty_append, totalPenalty_append, totalPenalty_append, totalPenalty_append,
    totalPenalty_ite, totalPenalty_ite, totalPenalty_ite, totalPenalty_ite, totalPenalty_ite]
  have p1 : gapPenalty gapMissingContext.type = 20 := rfl
  have p2 : gapPenalty gapNoFollowup.type = 10 := rfl
  have p3 : gapPenalty gapShortResponses.type = 15 := rfl
  have p4 : gapPenalty gapMissingDetails.type = 15 := rfl
  have p5 : gapPenalty gapNoActionItems.type = 10 := rfl
  rw [p1, p2, p3, p4, p5]
  simp only [ht6, if_true]
  ring

theorem unanswered_questions_gap_witness :
    (∃ g ∈ (analyze_conversation c6wSt "c").gaps,
      g.type = "unanswered_questions" ∧ g.severity = "high") ∧
    (analyze_conversation c6wSt "c").completeness_score =
      75 - totalPenalty ((analyze_conversation c6wSt "c").gaps.filter
        (fun g => g.type != "unanswered_questions")) :=
  unanswered_questions_gap c6wSt "c" c6hist rfl (by decide)

/-! ### History expansion lemmas -/

theorem mkChatMessage_user {c : String} (hc : 1 ≤ c.length) (t : Option Nat) :
    mkChatMessage "user" c t = Except.ok ⟨"user", c, t⟩ := by
  unfold mkChatMessage
  rw [if_neg (by simp), if_neg (by omega)]

theorem mkChatMessage_assistant {c : String} (hc : 1 ≤ c.length) (t : Option Nat) :
    mkChatMessage "assistant" c t = Except.ok ⟨"assistant", c, t⟩ := by
  unfold mkChatMessage
  rw [if_neg (by simp), if_neg (by omega)]

theorem expandDocs_ok (ds : List Doc)
    (h : ∀ d ∈ ds, 1 ≤ d.user_message.length ∧ 1 ≤ d.assistant_message.length) :
    ∃ ms, expandDocs ds = Except.ok ms ∧ pairedWith ds ms ∧
      ms.length = 2 * ds.length ∧ msgTimes ms = dupTimes ds := by
  induction ds with
  | nil => exact ⟨[], rfl, trivial, rfl, rfl⟩
  | cons d ds ih =>
    have hd := h d (List.mem_cons_self d ds)
    obtain ⟨ms, hms, hp, hl, ht⟩ := ih (fun x hx => h x (List.mem_cons_of_mem d hx))
    refine ⟨⟨"user", d.user_message, some d.timestamp⟩ ::
        ⟨"assistant", d.assistant_message, some d.timestamp⟩ :: ms, ?_, ?_, ?_, ?_⟩
    · simp [expandDocs, mkChatMessage_user hd.1, mkChatMessage_assistant hd.2, hms,
        bind, Except.bind]
    · exact ⟨rfl, rfl, rfl, rfl, rfl, rfl, hp⟩
    · simp only [List.length_cons, hl]
      omega
    · simp [msgTimes, dupTimes] at ht ⊢
      exact ht

theorem mem_dupTimes {x : Nat} {ds : List Doc} :
    x ∈ dupTimes ds ↔ ∃ d ∈ ds, x = d.timestamp := by
  induction ds with
  | nil => simp [dupTimes]
  | cons d ds ih =>
    simp [dupTimes, ih, List.mem_cons]

theorem dupTimes_sorted {ds : List Doc} (h : List.Sorted docLe ds) :
    List.Sorted (fun a b : Nat => a ≤ b) (dupTimes ds) := by
  induction ds with
  | nil => exact List.sorted_nil
  | cons d ds ih =>
    rw [List.sorted_cons] at h
    obtain ⟨hall, hs⟩ := h
    have hle : ∀ b ∈ dupTimes ds, d.timestamp ≤ b := by
      intro b hb
      obtain ⟨d2, hd2, rfl⟩ := mem_dupTimes.mp hb
      exact hall d2 hd2
    refine List.sorted_cons.mpr ⟨?_, List.sorted_cons.mpr ⟨hle, ih hs⟩⟩
    intro b hb
    rcases List.mem_cons.mp hb with rfl | hb2
    · exact Nat.le_refl _
    · exact hle b hb2

/-! ### C1 — history round-trip -/

/-- C1 counterexample: with 51 stored exchanges, `get_conversation_history`
at the Python default `limit=50` returns 100 messages and
`message_count = 100`, not `2 * 51 = 102` — the cap falsifies the unbounded
round-trip claim. -/
theorem history_roundtrip_counterexample :
    (c1cexSt.docs.filter (fun d => d.conversation_id == "c")).length = 51 ∧
    (get_conversation_history c1cexSt "c" 50).toOption.map
      (fun h => h.message_count) = some 100 ∧
    ¬((100 : Nat) = 2 * 51) :=
  ⟨by decide, rfl, by decide⟩

/-- C1 (amended): when the store is reachable, every stored text of the
conversation is non-empty, and the number `N` of stored exchanges for the
id does not exceed the requested limit, `get_conversation_history` succeeds
and returns exactly `2N` messages (`message_count = 2N`), a timestamp
sequence in non-decreasing order, and the exchanges — reordered
chronologically — each expanded into a `user` message followed by an
`assistant` message. -/
theorem history_roundtrip (st : DbState) (cid : String) (limit : Nat)
    (hc : st.connected = true)
    (hne : ∀ d ∈ st.docs, d.conversation_id = cid →
      1 ≤ d.user_message.length ∧ 1 ≤ d.assistant_message.length)
    (hN : (st.docs.filter (fun d => d.conversation_id == cid)).length ≤ limit) :
    ∃ hist, get_conversation_history st cid limit = Except.ok hist ∧
      hist.messages.length =
        2 * (st.docs.filter (fun d => d.conversation_id == cid)).length ∧
      hist.message_count = hist.messages.length ∧
      List.Sorted (fun a b : Nat => a ≤ b) (msgTimes hist.messages) ∧
      ∃ ds, ds.Perm (st.docs.filter (fun d => d.conversation_id == cid)) ∧
        List.Sorted docLe ds ∧ pairedWith ds hist.messages := by
  set l := st.docs.filter (fun d => d.conversation_id == cid) with hl
  have hperm : (sortedByTimestamp l).Perm l := List.perm_insertionSort docLe l
  have hlen : (sortedByTimestamp l).length = l.length := hperm.length_eq
  have htake : (sortedByTimestamp l).take limit = sortedByTimestamp l :=
    List.take_of_length_le (by rw [hlen]; exact hN)
  have hsorted : List.Sorted docLe (sortedByTimestamp l) :=
    List.sorted_insertionSort docLe l
  have hcontents : ∀ d ∈ sortedByTimestamp l,
      1 ≤ d.user_message.length ∧ 1 ≤ d.assistant_message.length := by
    intro d hd
    have hdl : d ∈ l := hperm.mem_iff.mp hd
    have hdd := List.mem_filter.mp hdl
    exact hne d hdd.1 (by simpa using hdd.2)
  obtain ⟨ms, hms, hp, hml, hmt⟩ := expandDocs_ok (sortedByTimestamp l) hcontents
  have hensure : ensureConnected st = Except.ok st := by
    simp [ensureConnected, hc]
  refine ⟨⟨cid, ms, (sortedByTimestamp l).head?.map (fun d => d.created_at),
      (sortedByTimestamp l).getLast?.map (fun d => d.timestamp), ms.length⟩,
    ?_, ?_, rfl, ?_, sortedByTimestamp l, hperm, hsorted, hp⟩
  · simp [get_conversation_history, hensure, bind, Except.bind, ← hl, htake, hms]
  · rw [hml, hlen]
  · rw [hmt]
    exact dupTimes_sorted hsorted

theorem history_roundtrip_witness :
    ∃ hist, get_conversation_history c1wSt "x" 50 = Except.ok hist ∧
      hist.messages.length =
        2 * (c1wSt.docs.filter (fun d => d.conversation_id == "x")).length ∧
      hist.message_count = hist.messages.length ∧
      List.Sorted (fun a b : Nat => a ≤ b) (msgTimes hist.messages) ∧
      ∃ ds, ds.Perm (c1wSt.docs.filter (fun d => d.conversation_id == "x")) ∧
        List.Sorted docLe ds ∧ pairedWith ds hist.messages :=
  history_roundtrip c1wSt "x" 50 rfl (by decide) (by decide)

/-! ### Aggregation lemmas -/

theorem foldl_min_le (f : Doc → Nat) (ds : List Doc) (a : Nat) :
    ds.foldl (fun acc x => Nat.min acc (f x)) a ≤ a ∧
    ∀ x ∈ ds, ds.foldl (fun acc x => Nat.min acc (f x)) a ≤ f x := by
  induction ds generalizing a with
  | nil => simp
  | cons d ds ih =>
    obtain ⟨h1, h2⟩ := ih (Nat.min a (f d))
    refine ⟨le_trans h1 (Nat.min_le_left _ _), ?_⟩
    intro x hx
    rcases List.mem_cons.mp hx with rfl | hx2
    · exact le_trans h1 (Nat.min_le_right _ _)
    · exact h2 x hx2

theorem foldl_min_mem (f : Doc → Nat) (ds : List Doc) (a : Nat) :
    ds.foldl (fun acc x => Nat.min acc (f x)) a = a ∨
    ∃ x ∈ ds, ds.foldl (fun acc x => Nat.min acc (f x)) a = f x := by
  induction ds generalizing a with
  | nil => exact Or.inl rfl
  | cons d ds ih =>
    rcases ih (Nat.min a (f d)) with h | ⟨x, hx, hh⟩
    · rcases Nat.le_total a (f d) with hle | hle
      · left
        rw [List.foldl_cons, h]
        exact Nat.min_eq_left hle
      · right
        refine ⟨d, List.mem_cons_self d ds, ?_⟩
        rw [List.foldl_cons, h]
        exact Nat.min_eq_right hle
    · right
      exact ⟨x, List.mem_cons_of_mem d hx, hh⟩

theorem foldl_max_ge (f : Doc → Nat) (ds : List Doc) (a : Nat) :
    a ≤ ds.foldl (fun acc x => Nat.max acc (f x)) a ∧
    ∀ x ∈ ds, f x ≤ ds.foldl (fun acc x => Nat.max acc (f x)) a := by
  induction ds generalizing a with
  | nil => simp
  | cons d ds ih =>
    obtain ⟨h1, h2⟩ := ih (Nat.max a (f d))
    refine ⟨le_trans (Nat.le_max_left _ _) h1, ?_⟩
    intro x hx
    rcases List.mem_cons.mp hx with rfl | hx2
    · exact le_trans (Nat.le_max_right _ _) h1
    · exact h2 x hx2

theorem foldl_max_mem (f : Doc → Nat) (ds : List Doc) (a : Nat) :
    ds.foldl (fun acc x => Nat.max acc (f x)) a = a ∨
    ∃ x ∈ ds, ds.foldl (fun acc x => Nat.max acc (f x)) a = f x := by
  induction ds generalizing a with
  | nil => exact Or.inl rfl
  | cons d ds ih =>
    rcases ih (Nat.max a (f d)) with h | ⟨x, hx, hh⟩
    · rcases Nat.le_total a (f d) with hle | hle
      · right
        refine ⟨d, List.mem_cons_self d ds, ?_⟩
        rw [List.foldl_cons, h]
        exact Nat.max_eq_right hle
      · left
        rw [List.foldl_cons, h]
        exact Nat.max_eq_left hle
    · right
      exact ⟨x, List.mem_cons_of_mem d hx, hh⟩

theorem lastD_mem (d : Doc) (ds : List Doc) : lastD d ds ∈ d :: ds := by
  induction ds generalizing d with
  | nil => simp [lastD]
  | cons x xs ih =>
    rw [lastD]
    exact List.mem_cons_of_mem d (ih x)

theorem lastD_ge (d : Doc) (ds : List Doc) (h : List.Sorted docLe (d :: ds)) :
    ∀ x ∈ d :: ds, x.timestamp ≤ (lastD d ds).timestamp := by
  induction ds generalizing d with
  | nil =>
    intro x hx
    rcases List.mem_cons.mp hx with rfl | h0
    · exact Nat.le_refl _
    · cases h0
  | cons y ys ih =>
    rw [List.sorted_cons] at h
    obtain ⟨hall, hs⟩ := h
    intro x hx
    rw [lastD]
    rcases List.mem_cons.mp hx with rfl | hx2
    · exact hall _ (lastD_mem y ys)
    · exact ih y hs x hx2

theorem mem_uniqueKeys {l : List String} {x : String} : x ∈ uniqueKeys l ↔ x ∈ l := by
  induction l with
  | nil => simp [uniqueKeys]
  | cons a l ih =>
    rw [uniqueKeys]
    simp only [List.mem_cons, List.mem_filter, ih, bne_iff_ne, ne_eq]
    constructor
    · rintro (rfl | ⟨h1, h2⟩)
      · exact Or.inl rfl
      · exact Or.inr h1
    · rintro (rfl | h1)
      · exact Or.inl rfl
      · by_cases hxa : x = a
        · exact Or.inl hxa
        · exact Or.inr ⟨h1, hxa⟩

/-! ### C7 — conversation summaries -/

/-- C7 counterexample: a stored document whose `conversation_id` is the
empty string is grouped by the pipeline but then skipped by the driver loop
(`if not conv_id: continue`), so this id, though present in the store, gets
no summary in the returned list. -/
theorem summaries_skip_empty_id :
    "" ∈ c7cexSt.docs.map (fun d => d.conversation_id) ∧
    get_conversation_summaries c7cexSt 20 = [] :=
  ⟨by decide, by decide⟩

/-- C7 (amended): for every conversation id present in a reachable store,
the aggregation computes a summary whose `message_count` is the exchange
count (not the expanded count), `created_at` the minimum stored
`created_at`, `updated_at` the maximum stored `timestamp`, and
`first_message`/`last_message` the user messages of a chronologically
first/last exchange; the endpoint returns the aggregated summaries sorted
by `updated_at` descending and truncated to `limit`, dropping any group
whose id is the empty string. -/
theorem summaries_aggregation (st : DbState) (limit : Nat) (id : String)
    (hc : st.connected = true) (ha : st.agg_fail = false)
    (hid : id ∈ st.docs.map (fun d => d.conversation_id)) :
    (∃ s ∈ aggregateSummaries st.docs,
      s.conversation_id = id ∧
      s.message_count = (st.docs.filter (fun d => d.conversation_id == id)).length ∧
      (∃ d ∈ st.docs, d.conversation_id = id ∧ s.created_at = some d.created_at ∧
        ∀ d2 ∈ st.docs, d2.conversation_id = id → d.created_at ≤ d2.created_at) ∧
      (∃ d ∈ st.docs, d.conversation_id = id ∧ s.updated_at = some d.timestamp ∧
        ∀ d2 ∈ st.docs, d2.conversation_id = id → d2.timestamp ≤ d.timestamp) ∧
      (∃ d ∈ st.docs, d.conversation_id = id ∧ s.first_message = some d.user_message ∧
        ∀ d2 ∈ st.docs, d2.conversation_id = id → d.timestamp ≤ d2.timestamp) ∧
      (∃ d ∈ st.docs, d.conversation_id = id ∧ s.last_message = some d.user_message ∧
        ∀ d2 ∈ st.docs, d2.conversation_id = id → d2.timestamp ≤ d.timestamp)) ∧
    get_conversation_summaries st limit =
      ((List.insertionSort summaryGe (aggregateSummaries st.docs)).take limit).filter
        (fun s => s.conversation_id != "") ∧
    List.Sorted summaryGe (get_conversation_summaries st limit) ∧
    (get_conversation_summaries st limit).length ≤ limit := by
  have hdocs_ne : st.docs ≠ [] := by
    intro h0
    rw [h0] at hid
    simp at hid
  have hbody : get_conversation_summaries st limit =
      ((List.insertionSort summaryGe (aggregateSummaries st.docs)).take limit).filter
        (fun s => s.conversation_id != "") := by
    simp [get_conversation_summaries, hc, summariesBody, ha,
      List.isEmpty_eq_false.mpr hdocs_ne]
  have hmem_group : ∀ d : Doc,
      d ∈ groupFor st.docs id ↔ (d ∈ st.docs ∧ d.conversation_id = id) := by
    intro d
    simp [groupFor, sortedByTimestamp]
  have hgrp_len : (groupFor st.docs id).length =
      (st.docs.filter (fun d => d.conversation_id == id)).length := by
    unfold groupFor
    exact (List.Perm.filter _ (List.perm_insertionSort docLe st.docs)).length_eq
  have hsort_grp : List.Sorted docLe (groupFor st.docs id) :=
    List.Pairwise.filter _ (List.sorted_insertionSort docLe st.docs)
  have hgrp_ne : groupFor st.docs id ≠ [] := by
    obtain ⟨d, hd, hdid⟩ := List.mem_map.mp hid
    intro h0
    have hdg : d ∈ groupFor st.docs id := (hmem_group d).mpr ⟨hd, hdid⟩
    rw [h0] at hdg
    cases hdg
  obtain ⟨g, gs, hgg⟩ : ∃ g gs, groupFor st.docs id = g :: gs := by
    cases hgl : groupFor st.docs id with
    | nil => exact absurd hgl hgrp_ne
    | cons g gs => exact ⟨g, gs, rfl⟩
  have hmem_cons : ∀ d : Doc, d ∈ g :: gs ↔ (d ∈ st.docs ∧ d.conversation_id = id) := by
    intro d
    rw [← hgg]
    exact hmem_group d
  have hsort_cons : List.Sorted docLe (g :: gs) := hgg ▸ hsort_grp
  have hg_in : (g ∈ st.docs ∧ g.conversation_id = id) :=
    (hmem_cons g).mp (List.mem_cons_self g gs)
  refine ⟨⟨⟨id, some g.user_message, some (lastD g gs).user_message, gs.length + 1,
      some (gs.foldl (fun acc x => Nat.min acc x.created_at) g.created_at),
      some (gs.foldl (fun acc x => Nat.max acc x.timestamp) g.timestamp)⟩,
    ?_, rfl, ?_, ?_, ?_, ?_, ?_⟩, hbody, ?_, ?_⟩
  · refine List.mem_filterMap.mpr ⟨id, ?_, ?_⟩
    · refine mem_uniqueKeys.mpr ?_
      rw [List.mem_map] at hid ⊢
      obtain ⟨d, hd, hdid⟩ := hid
      exact ⟨d, by simp [sortedByTimestamp, hd], hdid⟩
    · rw [hgg]
      rfl
  · have hl2 := hgrp_len
    rw [hgg] at hl2
    simpa using hl2
  · have hbound : ∀ d2 ∈ g :: gs,
        gs.foldl (fun acc x => Nat.min acc x.created_at) g.created_at ≤ d2.created_at := by
      intro d2 hd2
      rcases List.mem_cons.mp hd2 with rfl | hd2g
      · exact (foldl_min_le (fun x => x.created_at) gs d2.created_at).1
      · exact (foldl_min_le (fun x => x.created_at) gs g.created_at).2 d2 hd2g
    rcases foldl_min_mem (fun x => x.created_at) gs g.created_at with he | ⟨x, hx, he⟩
    · refine ⟨g, hg_in.1, hg_in.2, by rw [he], ?_⟩
      intro d2 hd2 hdid2
      have h2 := hbound d2 ((hmem_cons d2).mpr ⟨hd2, hdid2⟩)
      omega
    · have hx_in := (hmem_cons x).mp (List.mem_cons_of_mem g hx)
      refine ⟨x, hx_in.1, hx_in.2, by rw [he], ?_⟩
      intro d2 hd2 hdid2
      have h2 := hbound d2 ((hmem_cons d2).mpr ⟨hd2, hdid2⟩)
      omega
  · have hbound : ∀ d2 ∈ g :: gs,
        d2.timestamp ≤ gs.foldl (fun acc x => Nat.max acc x.timestamp) g.timestamp := by
      intro d2 hd2
      rcases List.mem_cons.mp hd2 with rfl | hd2g
      · exact (foldl_max_ge (fun x => x.timestamp) gs d2.timestamp).1
      · exact (foldl_max_ge (fun x => x.timestamp) gs g.timestamp).2 d2 hd2g
    rcases foldl_max_mem (fun x => x.timestamp) gs g.timestamp with he | ⟨x, hx, he⟩
    · refine ⟨g, hg_in.1, hg_in.2, by rw [he], ?_⟩
      intro d2 hd2 hdid2
      have h2 := hbound d2 ((hmem_cons d2).mpr ⟨hd2, hdid2⟩)
      omega
    · have hx_in := (hmem_cons x).mp (List.mem_cons_of_mem g hx)
      refine ⟨x, hx_in.1, hx_in.2, by rw [he], ?_⟩
      intro d2 hd2 hdid2
      have h2 := hbound d2 ((hmem_cons d2).mpr ⟨hd2, hdid2⟩)
      omega
  · refine ⟨g, hg_in.1, hg_in.2, rfl, ?_⟩
    intro d2 hd2 hdid2
    have hd2g := (hmem_cons d2).mpr ⟨hd2, hdid2⟩
    rcases List.mem_cons.mp hd2g with rfl | hd2gs
    · exact Nat.le_refl _
    · exact (List.sorted_cons.mp hsort_cons).1 d2 hd2gs
  · have hlast_in := (hmem_cons (lastD g gs)).mp (lastD_mem g gs)
    refine ⟨lastD g gs, hlast_in.1, hlast_in.2, rfl, ?_⟩
    intro d2 hd2 hdid2
    exact lastD_ge g gs hsort_cons d2 ((hmem_cons d2).mpr ⟨hd2, hdid2⟩)
  · rw [hbody]
    exact List.Pairwise.filter _
      (List.Pairwise.sublist (List.take_sublist limit _)
        (List.sorted_insertionSort summaryGe _))
  · rw [hbody]
    exact le_trans (List.length_filter_le _ _) (List.length_take_le _ _)

theorem summaries_aggregation_witness :
    (∃ s ∈ aggregateSummaries c7wSt.docs,
      s.conversation_id = "x" ∧
      s.message_count = (c7wSt.docs.filter (fun d => d.conversation_id == "x")).length ∧
      (∃ d ∈ c7wSt.docs, d.conversation_id = "x" ∧ s.created_at = some d.created_at ∧
        ∀ d2 ∈ c7wSt.docs, d2.conversation_id = "x" → d.created_at ≤ d2.created_at) ∧
      (∃ d ∈ c7wSt.docs, d.conversation_id = "x" ∧ s.updated_at = some d.timestamp ∧
        ∀ d2 ∈ c7wSt.docs, d2.conversation_id = "x" → d2.timestamp ≤ d.timestamp) ∧
      (∃ d ∈ c7wSt.docs, d.conversation_id = "x" ∧ s.first_message = some d.user_message ∧
        ∀ d2 ∈ c7wSt.docs, d2.conversation_id = "x" → d.timestamp ≤ d2.timestamp) ∧
      (∃ d ∈ c7wSt.docs, d.conversation_id = "x" ∧ s.last_message = some d.user_message ∧
        ∀ d2 ∈ c7wSt.docs, d2.conversation_id = "x" → d2.timestamp ≤ d.timestamp)) ∧
    get_conversation_summaries c7wSt 20 =
      ((List.insertionSort summaryGe (aggregateSummaries c7wSt.docs)).take 20).filter
        (fun s => s.conversation_id != "") ∧
    List.Sorted summaryGe (get_conversation_summaries c7wSt 20) ∧
    (get_conversation_summaries c7wSt 20).length ≤ 20 :=
  summaries_aggregation c7wSt 20 "x" rfl rfl (by decide)

end Chatbot
